import Mathlib

set_option maxRecDepth 10000

/- Shallow embedding of the audio backend: the Node/Express server
(src/server.js) and the ESP32 playback device (src/ESP32/audio_player.ino).
Paths are lists of normalized segments; the filesystem is a finite
association list from paths to file metadata. -/

/-- Split a character list on the slash character, mirroring how Node's
path module tokenizes a path string. -/
def splitOnSlashAux (acc : List Char) : List Char → List (List Char)
  | [] => [acc.reverse]
  | c :: cs => if c = '/' then acc.reverse :: splitOnSlashAux [] cs else splitOnSlashAux (c :: acc) cs

/-- Segments of a path string, empty segments dropped. -/
def splitPath (s : String) : List String :=
  ((splitOnSlashAux [] s.data).map (fun l => String.mk l)).filter (fun seg => seg ≠ "")

/-- One normalization step of Node's path.join: "." is dropped and ".."
removes the previous segment. -/
def normStep (acc : List String) (seg : String) : List String :=
  if seg = "." then acc
  else if seg = ".." then acc.dropLast
  else acc ++ [seg]

/-- Model of Node's path.join(dir, name) with dir already in segment form. -/
def pathJoin (dir : List String) (name : String) : List String :=
  (dir ++ splitPath name).foldl normStep []

/-- The uploads directory, path.join(__dirname, 'uploads') in src/server.js. -/
def uploadsDir : List String := ["__dirname", "uploads"]

/-- A legal single-component filename: nonempty, not "." or "..", and with
no path separator. -/
def isSimpleName (n : String) : Prop :=
  n ≠ "" ∧ n ≠ "." ∧ n ≠ ".." ∧ '/' ∉ n.data

instance (n : String) : Decidable (isSimpleName n) := by
  unfold isSimpleName; infer_instance

/-- Model of Node's path.extname on a basename: the suffix from the last
dot, or "" when there is no dot or the dot is the leading character. -/
def extname (name : String) : String :=
  match name.data.reverse.findIdx? (fun c => c == '.') with
  | none => ""
  | some k =>
    let i := name.data.length - 1 - k
    if i = 0 then "" else String.mk (name.data.drop i)

/-- ASCII lower-casing of one character, as JavaScript's toLowerCase does
on the characters appearing in filenames. -/
def lowerChar (c : Char) : Char :=
  if 65 ≤ c.toNat ∧ c.toNat ≤ 90 then Char.ofNat (c.toNat + 32) else c

/-- Model of JavaScript's String.prototype.toLowerCase. -/
def toLowerCase (s : String) : String := String.mk (s.data.map lowerChar)

/-- Model of JavaScript's String.prototype.startsWith. -/
def strStartsWith (s p : String) : Bool := s.data.take p.data.length == p.data

/-- Metadata kept by the filesystem for one file (fs.Stats). -/
structure FileMeta where
  size : Nat
  birthtimeMs : Nat
  mtimeMs : Nat
deriving DecidableEq

/-- The filesystem: an association list from paths to metadata. -/
abbrev FS := List (List String × FileMeta)

/-- fs.existsSync. -/
def FS.existsSync (fs : FS) (p : List String) : Bool :=
  fs.any (fun e => e.1 == p)

/-- fs.statSync, as an Option instead of throwing. -/
def FS.statSync (fs : FS) (p : List String) : Option FileMeta :=
  (fs.find? (fun e => e.1 == p)).map (fun e => e.2)

/-- fs.unlinkSync. -/
def FS.unlinkSync (fs : FS) (p : List String) : FS :=
  fs.filter (fun e => !(e.1 == p))

/-- fs.readdirSync: names of the direct children of a directory. -/
def FS.readdirSync (fs : FS) (dir : List String) : List String :=
  fs.filterMap (fun e => if e.1.dropLast == dir then e.1.getLast? else none)

/-- The extension allow-list of GET /api/tracks in src/server.js. -/
def audioExtensions : List String := [".mp3", ".wav", ".m4a", ".flac"]

/-- GET /api/tracks: list the uploads directory and keep files whose
lower-cased extension is in the allow-list (src/server.js lines 59-71). -/
def getTracks (fs : FS) : List String :=
  (FS.readdirSync fs uploadsDir).filter (fun file => audioExtensions.contains (toLowerCase (extname file)))

/-- DELETE /api/tracks/:filename (src/server.js lines 136-151): join the
filename onto the uploads directory, unlink it when it exists, else 404. -/
def deleteTrack (fs : FS) (filename : String) : FS × Nat :=
  let filepath := pathJoin uploadsDir filename
  if FS.existsSync fs filepath then (FS.unlinkSync fs filepath, 200) else (fs, 404)

/-- Response body of GET /api/tracks/:filename/info. -/
structure TrackInfo where
  filename : String
  size : Nat
  createdAt : Nat
  modifiedAt : Nat
deriving DecidableEq

/-- GET /api/tracks/:filename/info (src/server.js lines 154-174). -/
def trackInfo (fs : FS) (filename : String) : Nat × Option TrackInfo :=
  let filepath := pathJoin uploadsDir filename
  if FS.existsSync fs filepath then
    match FS.statSync fs filepath with
    | some st => (200, some ⟨filename, st.size, st.birthtimeMs, st.mtimeMs⟩)
    | none => (200, none)
  else (404, none)

/-- The raw upload written by multer: req.file.path (the multer filename
has no extension). -/
def inputFilePath (fname : String) : List String := uploadsDir ++ [fname]

/-- The transcode target: path.join(uploadsDir, req.file.filename + '.mp3'). -/
def outputFilePath (fname : String) : List String := uploadsDir ++ [fname ++ ".mp3"]

/-- The ffmpeg .on('error') handler of POST /api/upload (src/server.js
lines 122-127): unlink the raw input when it still exists, respond 500.
The output file is not touched. -/
def ffmpegErrorHandler (fs : FS) (fname : String) : FS × Nat :=
  ((if FS.existsSync fs (inputFilePath fname) then FS.unlinkSync fs (inputFilePath fname) else fs), 500)

/-- A fluent-ffmpeg command under construction. -/
structure FfmpegJob where
  input : List String
  bitrate : Option String := none
  channels : Option Nat := none
  frequency : Option Nat := none
  filters : List String := []
  fmt : Option String := none
  output : Option (List String) := none
deriving DecidableEq

/-- ffmpeg(inputPath). -/
def ffmpegCmd (input : List String) : FfmpegJob :=
  { input := input }

/-- .audioBitrate(v). -/
def FfmpegJob.audioBitrate (j : FfmpegJob) (v : String) : FfmpegJob :=
  { j with bitrate := some v }

/-- .audioChannels(v). -/
def FfmpegJob.audioChannels (j : FfmpegJob) (v : Nat) : FfmpegJob :=
  { j with channels := some v }

/-- .audioFrequency(v). -/
def FfmpegJob.audioFrequency (j : FfmpegJob) (v : Nat) : FfmpegJob :=
  { j with frequency := some v }

/-- .audioFilters(v). -/
def FfmpegJob.audioFilters (j : FfmpegJob) (v : List String) : FfmpegJob :=
  { j with filters := v }

/-- .format(v). -/
def FfmpegJob.format (j : FfmpegJob) (v : String) : FfmpegJob :=
  { j with fmt := some v }

/-- .save(outputPath). -/
def FfmpegJob.save (j : FfmpegJob) (out : List String) : FfmpegJob :=
  { j with output := some out }

/-- The exact builder chain of POST /api/upload (src/server.js lines
86-94 and 128). -/
def uploadTranscodeJob (fname : String) : FfmpegJob :=
  ((((((ffmpegCmd (inputFilePath fname)).audioBitrate "96k").audioChannels
      1).audioFrequency 44100).audioFilters
      ["highpass=f=200", "dynaudnorm=f=150:g=15"]).format "mp3").save (outputFilePath fname)

/-- The conversion-profile fields of a job. -/
def FfmpegJob.profile (j : FfmpegJob) :
    Option String × Option Nat × Option Nat × List String × Option String :=
  (j.bitrate, j.channels, j.frequency, j.filters, j.fmt)

/-- An incoming POST /api/upload request, as far as the routing layer
observes it: whether a file part is present, its declared MIME type and
size, and whether the later transcode succeeds. -/
structure UploadRequest where
  hasFile : Bool
  mimetype : String
  size : Nat
  transcodeOk : Bool
deriving DecidableEq

/-- The multer fileFilter of src/server.js lines 35-44. -/
def fileFilterAccepts (mimetype : String) : Bool :=
  strStartsWith mimetype "audio/" || mimetype == "application/octet-stream"

/-- limits.fileSize: 50 * 1024 * 1024. -/
def fileSizeLimit : Nat := 50 * 1024 * 1024

/-- Errors surfaced to the Express error middleware. -/
inductive ServerError where
  | multerSizeLimit
  | generic (msg : String)
deriving DecidableEq

/-- The error middleware of src/server.js lines 182-189: 400 only for
the multer size-limit error, 500 for everything else. -/
def errorMiddlewareStatus : ServerError → Nat
  | .multerSizeLimit => 400
  | .generic _ => 500

/-- The multer stage: either an error, or whether a file got attached. -/
def multerStage (r : UploadRequest) : Option ServerError × Bool :=
  if r.hasFile then
    if fileFilterAccepts r.mimetype then
      if r.size ≤ fileSizeLimit then (none, true)
      else (some .multerSizeLimit, false)
    else (some (.generic "Only audio files are allowed!"), false)
  else (none, false)

/-- End-to-end status of POST /api/upload, with whether ffmpeg was
invoked: multer errors go to the error middleware; a request without a
file gets 400 from the handler; otherwise the transcode decides 200/500. -/
def uploadOutcome (r : UploadRequest) : Nat × Bool :=
  match multerStage r with
  | (some e, _) => (errorMiddlewareStatus e, false)
  | (none, false) => (400, false)
  | (none, true) => (if r.transcodeOk then 200 else 500, true)

/- ===== ESP32 playback device (src/ESP32/audio_player.ino) ===== -/

def invalidJsonBody : String := "\x7b\"error\":\"Invalid JSON\"\x7d"

def urlMissingBody : String := "\x7b\"error\":\"URL missing\"\x7d"

def playingBody : String := "\x7b\"status\":\"playing\"\x7d"

def streamFailedBody : String := "\x7b\"error\":\"Stream failed\"\x7d"

def stoppedBody : String := "\x7b\"status\":\"stopped\"\x7d"

/-- The device globals: isPlaying, currentURL, and the level written to
the amplifier shutdown pin SD_PIN. -/
structure DeviceState where
  isPlaying : Bool
  currentURL : String
  ampOn : Bool
deriving DecidableEq

/-- State after setup(): SD_PIN driven LOW, nothing playing. -/
def bootState : DeviceState := ⟨false, "", false⟩

/-- Hardware-facing actions the handlers perform, in order. -/
inductive DeviceAction where
  | stopSong
  | delayMs (ms : Nat)
  | setAmp (level : Bool)
  | connectHost (url : String)
deriving DecidableEq

structure DeviceResp where
  status : Nat
  body : String
deriving DecidableEq

/-- The /api/play body handler (audio_player.ino lines 71-103): reject bad
JSON or a missing url; stop the previous song with a 100 ms grace delay
when playing; set currentURL, drive SD_PIN HIGH, connect; on success set
isPlaying and answer 200, on failure drive SD_PIN LOW and answer 500
(isPlaying is left as it was). -/
def playHandler (s : DeviceState) (validJson : Bool) (url : String) (connectOk : Bool) :
    DeviceState × DeviceResp × List DeviceAction :=
  if validJson = false then (s, ⟨400, invalidJsonBody⟩, [])
  else if url = "" then (s, ⟨400, urlMissingBody⟩, [])
  else
    let pre : List DeviceAction := if s.isPlaying then [.stopSong, .delayMs 100] else []
    let s1 : DeviceState := { s with currentURL := url, ampOn := true }
    if connectOk then
      ({ s1 with isPlaying := true }, ⟨200, playingBody⟩, pre ++ [.setAmp true, .connectHost url])
    else
      ({ s1 with ampOn := false }, ⟨500, streamFailedBody⟩,
        pre ++ [.setAmp true, .connectHost url, .setAmp false])

/-- The /api/stop handler (audio_player.ino lines 107-112). -/
def stopHandler (s : DeviceState) : DeviceState × DeviceResp × List DeviceAction :=
  ({ s with isPlaying := false, ampOn := false }, ⟨200, stoppedBody⟩, [.stopSong, .setAmp false])

/-- The audio_eof_mp3 callback (audio_player.ino lines 32-37). -/
def eofHandler (s : DeviceState) : DeviceState × List DeviceAction :=
  ({ s with isPlaying := false, ampOn := false }, [.stopSong, .setAmp false])

/-- The events the device reacts to; a play event carries whether its JSON
parsed, the url, and whether audio.connecttohost succeeds. -/
inductive DeviceEvent where
  | play (validJson : Bool) (url : String) (connectOk : Bool)
  | stop
  | eof
deriving DecidableEq

def deviceStep (s : DeviceState) : DeviceEvent → DeviceState × List DeviceAction
  | .play v u ok => ((playHandler s v u ok).1, (playHandler s v u ok).2.2)
  | .stop => ((stopHandler s).1, (stopHandler s).2.2)
  | .eof => eofHandler s

def runDevice (s : DeviceState) : List DeviceEvent → DeviceState
  | [] => s
  | e :: es => runDevice (deviceStep s e).1 es

def runDeviceActions (s : DeviceState) : List DeviceEvent → List DeviceAction
  | [] => []
  | e :: es => (deviceStep s e).2 ++ runDeviceActions (deviceStep s e).1 es

/-- The sequence of levels written to SD_PIN within an action trace. -/
def ampWrites (acts : List DeviceAction) : List Bool :=
  acts.filterMap (fun a => match a with | .setAmp b => some b | _ => none)

/-- Number of false-to-true transitions of the amplifier level along a
write sequence starting from a given level. -/
def risingEdges : Bool → List Bool → Nat
  | _, [] => 0
  | cur, b :: bs => (if !cur && b then 1 else 0) + risingEdges b bs

/- ===== Helper lemmas ===== -/

theorem existsSync_unlink_self (fs : FS) (p : List String) :
    FS.existsSync (FS.unlinkSync fs p) p = false := by
  simp only [FS.existsSync, FS.unlinkSync, List.any_eq_false]
  intro e he
  have hm := List.of_mem_filter he
  simpa using hm

theorem existsSync_unlink_ne (fs : FS) (p q : List String) (h : p ≠ q) :
    FS.existsSync (FS.unlinkSync fs p) q = FS.existsSync fs q := by
  induction fs with
  | nil => rfl
  | cons e t ih =>
    simp only [FS.existsSync, FS.unlinkSync, List.filter_cons, List.any_cons] at ih ⊢
    by_cases hep : e.1 = p
    · have hpt : (e.1 == p) = true := by rw [beq_iff_eq]; exact hep
      have hq : (e.1 == q) = false := by rw [beq_eq_false_iff_ne]; rw [hep]; exact h
      rw [hpt]
      simp only [Bool.not_true, Bool.false_eq_true, if_false, hq, Bool.false_or]
      exact ih
    · have hne : (e.1 == p) = false := by rw [beq_eq_false_iff_ne]; exact hep
      rw [hne]
      simp only [Bool.not_false, if_true, List.any_cons]
      rw [ih]

theorem existsSync_eq_statSync_isSome (fs : FS) (p : List String) :
    FS.existsSync fs p = (FS.statSync fs p).isSome := by
  induction fs with
  | nil => rfl
  | cons e t ih =>
    simp only [FS.existsSync, FS.statSync, List.any_cons, List.find?_cons] at ih ⊢
    by_cases hep : (e.1 == p) = true
    · simp [hep]
    · simp only [Bool.not_eq_true] at hep
      simp [hep, ih]

theorem splitOnSlashAux_no_slash (acc : List Char) (cs : List Char) (h : '/' ∉ cs) :
    splitOnSlashAux acc cs = [acc.reverse ++ cs] := by
  induction cs generalizing acc with
  | nil => simp [splitOnSlashAux]
  | cons c cs ih =>
    have hc : ¬ c = '/' := by
      intro he; subst he; exact h (List.mem_cons_self _ _)
    have h2 : '/' ∉ cs := fun hm => h (List.mem_cons_of_mem _ hm)
    simp [splitOnSlashAux, hc, ih _ h2]

theorem splitPath_simple (n : String) (h : isSimpleName n) : splitPath n = [n] := by
  obtain ⟨h1, h2, h3, h4⟩ := h
  unfold splitPath
  rw [splitOnSlashAux_no_slash [] n.data h4]
  simp [h1]

theorem pathJoin_simple (n : String) (h : isSimpleName n) :
    pathJoin uploadsDir n = uploadsDir ++ [n] := by
  obtain ⟨h1, h2, h3, h4⟩ := h
  unfold pathJoin
  rw [splitPath_simple n ⟨h1, h2, h3, h4⟩]
  show List.foldl normStep [] (["__dirname", "uploads"] ++ [n]) = _
  have e1 : normStep [] "__dirname" = ["__dirname"] := rfl
  have e2 : normStep ["__dirname"] "uploads" = ["__dirname", "uploads"] := rfl
  show normStep (normStep (normStep [] "__dirname") "uploads") n = _
  rw [e1, e2]
  simp [normStep, h2, h3, uploadsDir]

theorem inputFilePath_ne_outputFilePath (fname : String) :
    inputFilePath fname ≠ outputFilePath fname := by
  unfold inputFilePath outputFilePath
  intro h
  have h2 : fname = fname ++ ".mp3" := by
    simpa [uploadsDir] using h
  have h3 := congrArg String.length h2
  rw [String.length_append] at h3
  have h4 : (".mp3" : String).length = 4 := rfl
  rw [h4] at h3
  omega

theorem amp_inv_step (s : DeviceState) (e : DeviceEvent)
    (h : s.ampOn = true → s.isPlaying = true) :
    (deviceStep s e).1.ampOn = true → (deviceStep s e).1.isPlaying = true := by
  cases e with
  | play v u ok =>
    simp only [deviceStep, playHandler]
    by_cases hv : v = false
    · simp only [hv, if_pos rfl]; exact h
    · simp only [hv, if_neg hv]
      by_cases hu : u = ""
      · simp only [if_pos hu]; exact h
      · simp only [if_neg hu]
        cases ok with
        | true => simp
        | false => simp
  | stop => simp [deviceStep, stopHandler]
  | eof => simp [deviceStep, eofHandler]

theorem amp_inv_run (evs : List DeviceEvent) :
    ∀ s : DeviceState, (s.ampOn = true → s.isPlaying = true) →
      ((runDevice s evs).ampOn = true → (runDevice s evs).isPlaying = true) := by
  induction evs with
  | nil => intro s h; exact h
  | cons e es ih =>
    intro s h
    exact ih (deviceStep s e).1 (amp_inv_step s e h)

/- ===== Claim theorems ===== -/

/-- C1 counterexample: when ffmpeg fails after writing a partial output file,
the error handler of POST /api/upload leaves that output file on disk, it is
visible to a subsequent GET /api/tracks listing (it carries the .mp3
extension), and the handler answers 500 — refuting the claim that the error
path deletes both the raw input and the transcoded output. -/
theorem c1_counterexample :
    FS.existsSync (ffmpegErrorHandler [(inputFilePath "clip1696", ⟨2048, 0, 0⟩), (outputFilePath "clip1696", ⟨512, 1, 1⟩)] "clip1696").1 (outputFilePath "clip1696") = true
    ∧ "clip1696.mp3" ∈ getTracks (ffmpegErrorHandler [(inputFilePath "clip1696", ⟨2048, 0, 0⟩), (outputFilePath "clip1696", ⟨512, 1, 1⟩)] "clip1696").1
    ∧ (ffmpegErrorHandler [(inputFilePath "clip1696", ⟨2048, 0, 0⟩), (outputFilePath "clip1696", ⟨512, 1, 1⟩)] "clip1696").2 = 500 := by
  decide

/-- C1 (amended): on transcode failure the upload error path deletes the raw
input file and responds 500, but it never touches the (possibly partial)
transcoded output file — its presence on disk is exactly what it was before. -/
theorem ffmpegErrorHandler_cleanup (fs : FS) (fname : String) :
    FS.existsSync (ffmpegErrorHandler fs fname).1 (inputFilePath fname) = false
    ∧ FS.existsSync (ffmpegErrorHandler fs fname).1 (outputFilePath fname)
        = FS.existsSync fs (outputFilePath fname)
    ∧ (ffmpegErrorHandler fs fname).2 = 500 := by
  refine ⟨?_, ?_, rfl⟩
  · unfold ffmpegErrorHandler
    by_cases h : FS.existsSync fs (inputFilePath fname) = true
    · rw [if_pos h]
      exact existsSync_unlink_self fs (inputFilePath fname)
    · simp only [Bool.not_eq_true] at h
      rw [if_neg (by rw [h]; exact Bool.false_ne_true)]
      exact h
  · unfold ffmpegErrorHandler
    by_cases h : FS.existsSync fs (inputFilePath fname) = true
    · rw [if_pos h]
      exact existsSync_unlink_ne fs (inputFilePath fname) (outputFilePath fname)
        (inputFilePath_ne_outputFilePath fname)
    · simp only [Bool.not_eq_true] at h
      rw [if_neg (by rw [h]; exact Bool.false_ne_true)]

/-- C2 counterexample: the reachable event sequence "play A succeeds, then
play B fails to open" leaves isPlaying true while the amplifier pin is LOW,
refuting the claimed equivalence between SD_PIN and the active state. -/
theorem c2_counterexample :
    (runDevice bootState [DeviceEvent.play true "http://h/a.mp3" true, DeviceEvent.play true "http://h/b.mp3" false]).isPlaying = true
    ∧ (runDevice bootState [DeviceEvent.play true "http://h/a.mp3" true, DeviceEvent.play true "http://h/b.mp3" false]).ampOn = false := by
  decide

/-- C2 (amended): at boot the amplifier is disabled and nothing is playing,
and in every reachable state the amplifier can be enabled only while
isPlaying is true; the converse direction of the claimed equivalence fails
(see the counterexample), because a failed stream open that preempted an
active stream leaves isPlaying stale. -/
theorem amp_enabled_only_if_playing :
    bootState.ampOn = false ∧ bootState.isPlaying = false ∧
    ∀ evs : List DeviceEvent,
      (runDevice bootState evs).ampOn = true → (runDevice bootState evs).isPlaying = true := by
  refine ⟨rfl, rfl, fun evs => ?_⟩
  exact amp_inv_run evs bootState (by intro hb; exact absurd hb (by decide))

theorem amp_enabled_only_if_playing_witness :
    (runDevice bootState [DeviceEvent.play true "http://h/a.mp3" true]).ampOn = true
    ∧ (runDevice bootState [DeviceEvent.play true "http://h/a.mp3" true]).isPlaying = true :=
  ⟨by decide, amp_enabled_only_if_playing.2.2 [DeviceEvent.play true "http://h/a.mp3" true] (by decide)⟩

/-- C3 counterexample: from the Active state (reached by a successful play),
a play request whose stream open fails answers 500 and disables the
amplifier but leaves isPlaying true — the controller does not end in Idle,
refuting the claim for the Active prior state. -/
theorem c3_counterexample :
    (playHandler (runDevice bootState [DeviceEvent.play true "http://h/one.mp3" true]) true "bad://url" false).1.isPlaying = true
    ∧ (playHandler (runDevice bootState [DeviceEvent.play true "http://h/one.mp3" true]) true "bad://url" false).1.ampOn = false
    ∧ (playHandler (runDevice bootState [DeviceEvent.play true "http://h/one.mp3" true]) true "bad://url" false).2.1.status = 500 := by
  decide

/-- C3 (amended): when a stream open fails, the handler always disables the
amplifier and reports failure (500, never success); from Idle the controller
indeed ends in Idle, but from any prior state isPlaying is left exactly as it
was, so from Active the flag stays true. -/
theorem play_open_failure_cleanup (s : DeviceState) (url : String) (h : url ≠ "") :
    (playHandler s true url false).1.ampOn = false
    ∧ (playHandler s true url false).2.1.status = 500
    ∧ (playHandler s true url false).1.isPlaying = s.isPlaying
    ∧ (s.isPlaying = false → (playHandler s true url false).1 = ⟨false, url, false⟩) := by
  simp only [playHandler, if_neg h]
  refine ⟨by simp, by simp, by simp, fun hp => ?_⟩
  simp [hp]

theorem play_open_failure_cleanup_witness :
    ("bad://url" : String) ≠ ""
    ∧ (playHandler bootState true "bad://url" false).1.ampOn = false :=
  ⟨by decide, (play_open_failure_cleanup bootState "bad://url" (by decide)).1⟩

/-- C4: a play request arriving while a stream is active first stops the
current stream with the 100 ms grace delay and then performs exactly the
Idle play path (same actions, same resulting state, same response); the
resulting state has exactly the new URL active with the amplifier enabled,
and in the play-A-then-play-B scenario the amplifier level has exactly one
rising edge — it is enabled once, with no double-enable glitch. -/
theorem preemptive_switch (s : DeviceState) (urlA urlB : String)
    (hA : s.isPlaying = true) (h1 : urlA ≠ "") (h2 : urlB ≠ "") :
    (playHandler s true urlB true).2.2
      = [DeviceAction.stopSong, DeviceAction.delayMs 100]
          ++ (playHandler { s with isPlaying := false } true urlB true).2.2
    ∧ (playHandler s true urlB true).1 = (playHandler { s with isPlaying := false } true urlB true).1
    ∧ (playHandler s true urlB true).2.1 = (playHandler { s with isPlaying := false } true urlB true).2.1
    ∧ (playHandler s true urlB true).1 = ⟨true, urlB, true⟩
    ∧ risingEdges false (ampWrites (runDeviceActions bootState
        [DeviceEvent.play true urlA true, DeviceEvent.play true urlB true])) = 1 := by
  refine ⟨?_, ?_, ?_, ?_, ?_⟩
  · simp [playHandler, hA, h2]
  · simp [playHandler, hA, h2]
  · simp [playHandler, hA, h2]
  · simp [playHandler, hA, h2]
  · simp [runDeviceActions, deviceStep, playHandler, bootState, h1, h2, ampWrites, risingEdges]

theorem preemptive_switch_witness :
    (DeviceState.mk true "http://h/a.mp3" true).isPlaying = true
    ∧ ("http://h/b.mp3" : String) ≠ ""
    ∧ (playHandler ⟨true, "http://h/a.mp3", true⟩ true "http://h/b.mp3" true).1 = ⟨true, "http://h/b.mp3", true⟩ :=
  ⟨rfl, by decide, (preemptive_switch ⟨true, "http://h/a.mp3", true⟩ "http://h/a.mp3" "http://h/b.mp3" rfl (by decide) (by decide)).2.2.2.1⟩

/-- C5: every transcode job built by POST /api/upload carries the fixed
profile — 96 kbps, mono (1 channel), 44.1 kHz, the 200 Hz highpass followed
by dynamic-range normalization, mp3 output — the profile is identical for
any two requests (no per-request override), and input/output are the raw
upload and its .mp3 sibling. -/
theorem transcode_profile_fixed (f1 f2 : String) :
    (uploadTranscodeJob f1).profile
      = (some "96k", some 1, some 44100, ["highpass=f=200", "dynaudnorm=f=150:g=15"], some "mp3")
    ∧ (uploadTranscodeJob f1).profile = (uploadTranscodeJob f2).profile
    ∧ (uploadTranscodeJob f1).input = inputFilePath f1
    ∧ (uploadTranscodeJob f1).output = some (outputFilePath f1) :=
  ⟨rfl, rfl, rfl, rfl⟩

/-- C6 counterexample: a request carrying a file with the disallowed MIME
type text/plain is answered 500 (the fileFilter error falls through to the
generic error middleware), not the claimed 400. -/
theorem c6_counterexample :
    (uploadOutcome ⟨true, "text/plain", 1, true⟩).1 = 500
    ∧ (uploadOutcome ⟨true, "text/plain", 1, true⟩).1 ≠ 400
    ∧ fileFilterAccepts "text/plain" = false := by
  decide

/-- C6 (amended): the filter accepts exactly MIME types starting with audio/
or equal to application/octet-stream; a missing file yields 400 with no
transcode, an oversized file yields 400 via the multer size-limit branch of
the error middleware, a disallowed MIME type yields 500 (not 400) with no
transcode, an accepted file yields 200 on transcode success and 500 on
transcode failure, and 200 occurs only for accepted files. -/
theorem upload_status_spec (r : UploadRequest) :
    (r.hasFile = false → uploadOutcome r = (400, false))
    ∧ (r.hasFile = true → fileFilterAccepts r.mimetype = false → uploadOutcome r = (500, false))
    ∧ (r.hasFile = true → fileFilterAccepts r.mimetype = true → fileSizeLimit < r.size →
        uploadOutcome r = (400, false))
    ∧ (r.hasFile = true → fileFilterAccepts r.mimetype = true → r.size ≤ fileSizeLimit →
        uploadOutcome r = ((if r.transcodeOk then 200 else 500), true))
    ∧ ((uploadOutcome r).1 = 200 → r.hasFile = true ∧ fileFilterAccepts r.mimetype = true) := by
  refine ⟨?_, ?_, ?_, ?_, ?_⟩
  · intro h; simp [uploadOutcome, multerStage, h]
  · intro h1 h2
    simp [uploadOutcome, multerStage, errorMiddlewareStatus, h1, h2]
  · intro h1 h2 h3
    simp [uploadOutcome, multerStage, errorMiddlewareStatus, h1, h2, Nat.not_le.mpr h3]
  · intro h1 h2 h3
    simp [uploadOutcome, multerStage, h1, h2, h3]
  · intro h
    by_cases h1 : r.hasFile = true
    · by_cases h2 : fileFilterAccepts r.mimetype = true
      · exact ⟨h1, h2⟩
      · simp only [Bool.not_eq_true] at h2
        simp [uploadOutcome, multerStage, errorMiddlewareStatus, h1, h2] at h
    · simp only [Bool.not_eq_true] at h1
      simp [uploadOutcome, multerStage, h1] at h

theorem upload_status_spec_witness :
    (UploadRequest.mk false "" 0 true).hasFile = false
    ∧ uploadOutcome ⟨false, "", 0, true⟩ = (400, false) :=
  ⟨rfl, (upload_status_spec ⟨false, "", 0, true⟩).1 rfl⟩

/-- C7: POST /api/stop is total and idempotent — from every controller state
it yields Idle (isPlaying false) with the amplifier disabled and the
200 status stopped response, and applying it a second time reproduces the
identical state, response and actions. -/
theorem stop_idempotent (s : DeviceState) :
    (stopHandler s).1.isPlaying = false
    ∧ (stopHandler s).1.ampOn = false
    ∧ (stopHandler s).2.1 = ⟨200, stoppedBody⟩
    ∧ stopHandler (stopHandler s).1 = stopHandler s := by
  simp [stopHandler]

/-- C8: for every legal single-component filename, DELETE /api/tracks and
GET /api/tracks info answer 404 exactly when no file of that name exists in
the uploads directory; when it exists, delete answers 200 and removes it,
and info answers 200 with the file's size, creation and modification
times. -/
theorem catalog_404_iff (fs : FS) (n : String) (h : isSimpleName n) :
    ((deleteTrack fs n).2 = 404 ↔ FS.existsSync fs (uploadsDir ++ [n]) = false)
    ∧ ((trackInfo fs n).1 = 404 ↔ FS.existsSync fs (uploadsDir ++ [n]) = false)
    ∧ (FS.existsSync fs (uploadsDir ++ [n]) = true →
        (deleteTrack fs n).2 = 200
        ∧ FS.existsSync (deleteTrack fs n).1 (uploadsDir ++ [n]) = false
        ∧ ∃ st : FileMeta, FS.statSync fs (uploadsDir ++ [n]) = some st
            ∧ trackInfo fs n = (200, some ⟨n, st.size, st.birthtimeMs, st.mtimeMs⟩)) := by
  have hp : pathJoin uploadsDir n = uploadsDir ++ [n] := pathJoin_simple n h
  by_cases he : FS.existsSync fs (uploadsDir ++ [n]) = true
  · have hsome : (FS.statSync fs (uploadsDir ++ [n])).isSome := by
      rw [← existsSync_eq_statSync_isSome]; exact he
    obtain ⟨st, hst⟩ := Option.isSome_iff_exists.mp hsome
    refine ⟨?_, ?_, fun _ => ⟨?_, ?_, ⟨st, hst, ?_⟩⟩⟩
    · simp [deleteTrack, hp, he]
    · simp [trackInfo, hp, he, hst]
    · simp [deleteTrack, hp, he]
    · simp [deleteTrack, hp, he, existsSync_unlink_self]
    · simp [trackInfo, hp, he, hst]
  · have hf : FS.existsSync fs (uploadsDir ++ [n]) = false := by
      simpa using he
    refine ⟨?_, ?_, fun hc => absurd hc he⟩
    · simp [deleteTrack, hp, hf]
    · simp [trackInfo, hp, hf]

theorem catalog_404_iff_witness :
    isSimpleName "a.mp3"
    ∧ (deleteTrack [(["__dirname", "uploads", "a.mp3"], ⟨5, 1, 2⟩)] "a.mp3").2 = 200 :=
  ⟨by decide, ((catalog_404_iff [(["__dirname", "uploads", "a.mp3"], ⟨5, 1, 2⟩)] "a.mp3" (by decide)).2.2 (by decide)).1⟩

/-- C9: with the local backend, a filename appears in the GET /api/tracks
listing exactly when it is a direct child of the uploads directory and its
extension, lower-cased, belongs to the fixed allow-list mp3/wav/m4a/flac. -/
theorem tracks_mem_iff (fs : FS) (f : String) :
    f ∈ getTracks fs
      ↔ f ∈ FS.readdirSync fs uploadsDir ∧ toLowerCase (extname f) ∈ audioExtensions := by
  simp [getTracks, List.mem_filter]

/-- C10: the per-artifact catalog routes join the filename parameter onto
the uploads directory with no sanitization: the input "../server.js"
resolves to a path outside the uploads directory, and on a filesystem
holding that outside file the delete route answers 200 and removes it and
the info route answers 200 — both act on a file that is not a stored
artifact. -/
theorem path_traversal_escape :
    pathJoin uploadsDir "../server.js" = ["__dirname", "server.js"]
    ∧ (pathJoin uploadsDir "../server.js").take uploadsDir.length ≠ uploadsDir
    ∧ (deleteTrack [(["__dirname", "server.js"], ⟨10, 0, 0⟩)] "../server.js").2 = 200
    ∧ FS.existsSync (deleteTrack [(["__dirname", "server.js"], ⟨10, 0, 0⟩)] "../server.js").1 ["__dirname", "server.js"] = false
    ∧ (trackInfo [(["__dirname", "server.js"], ⟨10, 0, 0⟩)] "../server.js").1 = 200 := by
  decide
